import Mathlib

/-!
# Verification of the meetup-archiver fetch pipeline (src/meetupClient.ts)

A shallow embedding of the core pipeline of `MeetupClient`:
the rate governor (`checkRateLimit`), the query executor (`executeQuery`),
the pagination loop (`fetchAllEvents`), the dual-status aggregator
(`fetchAllGroupEvents`) and the image-enrichment stage
(`embedEventImages`, `downloadImageAsBase64`, `fetchPhotoAlbumImages`).

Modelling conventions:
* Network effects are oracles passed as arguments: the server's sequence of
  GraphQL responses is a finite list consumed one element per loop iteration;
  HTTP image downloads and the secondary album query are functions returning
  `Option` (`none` = the request threw / timed out).
* JavaScript exceptions become `Except` errors; a thrown `Error(msg)` is
  represented by a constructor of `ApiError` carrying the classification the
  specification names, plus the data interpolated into the message.
* `Date.now()` is an explicit `now : Int` argument (milliseconds); the
  mutable rate-limiter fields become an explicit `RateState` record.
* Timestamps: the code sorts by `new Date(e.dateTime).getTime()`; we model
  `dateTime` directly as the epoch-millisecond value (a `Nat`), since only
  its ordering is ever used.
* When the pagination loop would issue one more request than the modelled
  response list provides, the model returns `none` ("the run does not
  terminate within the supplied responses"); every theorem below supplies
  enough responses.
-/

namespace MeetupArchiver

/-- `RATE_LIMIT_POINTS` from meetupClient.ts. -/
def RATE_LIMIT_POINTS : Nat := 500

/-- `RATE_LIMIT_WINDOW` from meetupClient.ts (60 seconds in milliseconds). -/
def RATE_LIMIT_WINDOW : Int := 60000

/-- The mutable rate-limiter fields of `MeetupClient`:
`requestCount` and `windowStart`. -/
structure RateState where
  requestCount : Nat
  windowStart : Int
deriving DecidableEq, Repr

/-- `checkRateLimit` from meetupClient.ts, as a pure state transition on
`RateState` given the current clock value `now`.  The source reads
`Date.now()` twice (once at entry, once inside the "approaching limit"
branch); the model uses the single value `now` for both reads.
Mirrors the source exactly: `elapsed` is computed once at entry, so the
second branch's `waitTime` uses the pre-reset elapsed value.  The source
function never throws; correspondingly the model is a total function. -/
def checkRateLimit (now : Int) (s : RateState) : RateState :=
  let elapsed := now - s.windowStart
  let s1 := if elapsed > RATE_LIMIT_WINDOW then
      { requestCount := 0, windowStart := now } else s
  if s1.requestCount ≥ RATE_LIMIT_POINTS - 10 then
    let waitTime := RATE_LIMIT_WINDOW - elapsed
    if waitTime > 0 then { requestCount := 0, windowStart := now }
    else s1
  else s1

/-! ## Data model (src/types.ts) -/

/-- `EventHost` from types.ts. -/
structure EventHost where
  memberId : String
  name : String
deriving DecidableEq, Repr

/-- `Photo` / `EventPhoto` from types.ts: a featured-photo descriptor
(url template base + photo id). -/
structure Photo where
  id : String
  baseUrl : String
deriving DecidableEq, Repr

/-- `EventPhotoEdge` from types.ts. -/
structure EventPhotoEdge where
  node : Photo
deriving DecidableEq, Repr

/-- The `photos` connection attached to an album (`{ edges: [...] }`). -/
structure EventPhotosConnection where
  edges : List EventPhotoEdge
deriving DecidableEq, Repr

/-- `EventPhotoAlbum` from types.ts.  `id` and `photoCount` are optional in
the TS interface; `photos` is absent until the enrichment stage attaches it. -/
structure EventPhotoAlbum where
  id : Option String
  photoCount : Option Nat
  photos : Option EventPhotosConnection
deriving DecidableEq, Repr

/-- `Event` from types.ts, restricted to the fields the core pipeline reads
or writes (identity, title, start time, url, hosts, photo descriptors).
`dateTime` is the epoch-millisecond value of the ISO timestamp string. -/
structure Event where
  id : String
  title : String
  dateTime : Nat
  eventUrl : String
  eventHosts : Option (List EventHost)
  featuredEventPhoto : Option Photo
  photoAlbum : Option EventPhotoAlbum
deriving DecidableEq, Repr

/-- `PageInfo` from types.ts. -/
structure PageInfo where
  endCursor : String
  hasNextPage : Bool
deriving DecidableEq, Repr

/-- `EventEdge` from types.ts. -/
structure EventEdge where
  node : Event
deriving DecidableEq, Repr

/-- `EventsConnection` from types.ts. -/
structure EventsConnection where
  totalCount : Nat
  pageInfo : PageInfo
  edges : List EventEdge
deriving DecidableEq, Repr

/-- `Group` from types.ts.  `events` is optional. -/
structure Group where
  id : String
  name : String
  urlname : String
  events : Option EventsConnection
deriving DecidableEq, Repr

/-- `GroupByUrlnameData` from types.ts: `groupByUrlname` may be null. -/
structure GroupByUrlnameData where
  groupByUrlname : Option Group
deriving DecidableEq, Repr

/-- The `extensions` object of a GraphQL error entry (types.ts). -/
structure GqlErrorExt where
  code : String
  resetAt : Option String
deriving DecidableEq, Repr

/-- One entry of the GraphQL `errors` array (types.ts). -/
structure GqlError where
  message : String
  ext : Option GqlErrorExt
deriving DecidableEq, Repr

/-- `MeetupApiResponse<GroupByUrlnameData>` from types.ts: the envelope
`{ data, errors? }`. -/
structure MeetupApiResponse where
  data : GroupByUrlnameData
  errors : Option (List GqlError)
deriving DecidableEq, Repr

/-- A transport-layer failure of `this.client.post` (an exception thrown by
axios before an envelope is available): either an axios error with an
optional HTTP status, or a non-axios exception. -/
inductive TransportFault where
  | axiosFault (status : Option Nat) (message : String)
  | otherFault (message : String)
deriving DecidableEq, Repr

/-- The classified errors thrown by the client (every `throw new Error(...)`
site of meetupClient.ts reachable from the fetch pipeline, classified as in
§7 of the specification). -/
inductive ApiError where
  /-- "Rate limited. Please wait until resetAt before retrying." -/
  | rateLimited (resetAt : Option String)
  /-- "GraphQL Error: message" -/
  | graphQLError (message : String)
  /-- The JS TypeError raised when `errors` is present but empty
  (`errors[0]` is undefined and `.extensions` is read from it). -/
  | emptyErrors
  /-- "Authentication failed. ..." (HTTP 401) -/
  | authenticationFailed
  /-- "API request failed: message" (other axios faults) -/
  | transportError (message : String)
  /-- A non-axios exception rethrown unchanged by the catch block. -/
  | otherError (message : String)
  /-- "Group not found: urlname. Please check the group URL name." -/
  | groupNotFound (urlname : String)
deriving DecidableEq, Repr

/-- `executeQuery` from meetupClient.ts, as a function of the transport
outcome of `this.client.post` (the rate-governor call and the
`requestCount` increment are state kept by `RateState` / `checkRateLimit`
and do not affect the returned value).  On a delivered envelope: a truthy
`errors` array routes to `RateLimited` when the FIRST entry's
`extensions?.code` is `RATE_LIMITED`, otherwise to `GraphQLError` with the
first entry's message; an empty (still truthy) `errors` array makes the JS
code dereference `undefined`.  On a transport exception: axios faults with
status 401 become `AuthenticationFailed`, other axios faults
`TransportError`, anything else is rethrown unchanged. -/
def executeQuery (resp : Except TransportFault MeetupApiResponse) :
    Except ApiError MeetupApiResponse :=
  match resp with
  | .error (.axiosFault status msg) =>
    if status = some 401 then .error .authenticationFailed
    else .error (.transportError msg)
  | .error (.otherFault msg) => .error (.otherError msg)
  | .ok r =>
    match r.errors with
    | some (e :: _) =>
      match e.ext with
      | some x =>
        if x.code = "RATE_LIMITED" then .error (.rateLimited x.resetAt)
        else .error (.graphQLError e.message)
      | none => .error (.graphQLError e.message)
    | some [] => .error .emptyErrors
    | none => .ok r

/-! ## Pagination engine (`fetchAllEvents`) -/

/-- The result record of `fetchAllEvents`:
`{ events, groupId, groupName }`. -/
structure FetchResult where
  events : List Event
  groupId : String
  groupName : String
deriving DecidableEq, Repr

/-- The per-event predicate of the post-filter in `fetchAllEvents`:
`event.eventHosts?.some(host => host.name === 'OWASP® Foundation')`. -/
def hasFoundationHost (e : Event) : Bool :=
  match e.eventHosts with
  | some hosts => hosts.any (fun h => h.name = "OWASP® Foundation")
  | none => false

/-- One page's records after the sentinel-host post-filter:
`events.edges.map(e => e.node).filter(e => !hasFoundationHost(e))`. -/
def filteredPageEvents (conn : EventsConnection) : List Event :=
  (conn.edges.map (fun edge => edge.node)).filter (fun e => !hasFoundationHost e)

/-- The `while (hasNextPage)` loop of `fetchAllEvents`, consuming one
transport outcome per iteration.  `acc` is the `allEvents` accumulator.
Returns `none` when the loop would issue a request beyond the supplied
response list (i.e. the modelled run does not terminate within it).
Mirrors the source body: execute the query; a null `groupByUrlname` throws
"Group not found" (checked on EVERY iteration); a missing `events`
connection breaks out of the loop returning the accumulator and the current
page's group id/name; otherwise append the post-filtered page records and
continue while `pageInfo.hasNextPage` holds. -/
def fetchAllEventsLoop (groupUrlname : String) (acc : List Event) :
    List (Except TransportFault MeetupApiResponse) →
    Option (Except ApiError FetchResult)
  | [] => none
  | resp :: rest =>
    match executeQuery resp with
    | .error e => some (.error e)
    | .ok r =>
      match r.data.groupByUrlname with
      | none => some (.error (.groupNotFound groupUrlname))
      | some group =>
        match group.events with
        | none => some (.ok ⟨acc, group.id, group.name⟩)
        | some conn =>
          let acc2 := acc ++ filteredPageEvents conn
          if conn.pageInfo.hasNextPage then
            fetchAllEventsLoop groupUrlname acc2 rest
          else
            some (.ok ⟨acc2, group.id, group.name⟩)

/-- `fetchAllEvents` from meetupClient.ts: run the pagination loop from an
empty accumulator over the server's response sequence.  (The `status`
argument of the source only selects which server-side sequence is served,
so it is represented by the choice of `pages`; `getGroupEventsQuery`,
console logging and the 100 ms courtesy delay do not affect the value.) -/
def fetchAllEvents (groupUrlname : String)
    (pages : List (Except TransportFault MeetupApiResponse)) :
    Option (Except ApiError FetchResult) :=
  fetchAllEventsLoop groupUrlname [] pages

/-! ## Enrichment stage (`embedEventImages` and helpers) -/

/-- The raw outcome of a successful binary image download: the
`content-type` response header (absent or empty falls back to
`image/jpeg`) and the base64 rendering of the body
(`Buffer.from(data).toString('base64')`, an external pure encoding). -/
structure RawImage where
  contentType : Option String
  base64 : String
deriving DecidableEq, Repr

/-- An HTTP image-download oracle: `none` means the GET threw
(timeout included). -/
def HttpOracle := String → Option RawImage

/-- `downloadImageAsBase64` from meetupClient.ts: on success build the data
URI `data:<contentType>;base64,<payload>` (defaulting the content type to
`image/jpeg` when the header is missing or empty, as `||` does); on any
failure log a warning and return `null`. -/
def downloadImageAsBase64 (http : HttpOracle) (url : String) : Option String :=
  match http url with
  | some raw =>
    let ct := match raw.contentType with
      | some c => if c = "" then "image/jpeg" else c
      | none => "image/jpeg"
    some ("data:" ++ ct ++ ";base64," ++ raw.base64)
  | none => none

/-- One entry of the album query's `photoSample` array. -/
structure PhotoSampleItem where
  id : Option String
  baseUrl : Option String
  highResUrl : Option String
deriving DecidableEq, Repr

/-- The parsed body of the secondary album query's response. -/
structure AlbumQueryResult where
  hasErrors : Bool
  photoSample : Option (List PhotoSampleItem)
deriving DecidableEq, Repr

/-- An oracle for the secondary album query (eventId, requested number):
`none` means the POST threw. -/
def AlbumOracle := String → Nat → Option AlbumQueryResult

/-- `fetchPhotoAlbumImages` from meetupClient.ts: any transport exception,
a truthy `errors` field, or a missing `photoSample` yields `[]`; otherwise
collect `{url: highResUrl, id}` for every sample item whose `highResUrl`
and `id` are both truthy (present and non-empty). -/
def fetchPhotoAlbumImages (album : AlbumOracle) (eventId : String)
    (photoCount : Nat) : List (String × String) :=
  match album eventId photoCount with
  | none => []
  | some r =>
    if r.hasErrors then []
    else
      match r.photoSample with
      | none => []
      | some items =>
        items.filterMap (fun p =>
          match p.highResUrl, p.id with
          | some u, some i => if u ≠ "" ∧ i ≠ "" then some (u, i) else none
          | _, _ => none)

/-- The featured-photo image URL built by `embedEventImages`:
`baseUrl + id + "/676x380.jpg"`. -/
def featuredImageUrl (p : Photo) : String :=
  p.baseUrl ++ p.id ++ "/676x380.jpg"

/-- The featured-photo block of `embedEventImages`' loop body for one
event: when the descriptor's `baseUrl` and `id` are both truthy, attempt
the download of `baseUrl + id + "/676x380.jpg"`; on success overwrite
`baseUrl` with the data URI and clear `id` (`event.featuredEventPhoto.id =
''`); on failure leave the event untouched. -/
def embedFeatured (http : HttpOracle) (e : Event) : Event :=
  match e.featuredEventPhoto with
  | some p =>
    if p.baseUrl ≠ "" ∧ p.id ≠ "" then
      match downloadImageAsBase64 http (featuredImageUrl p) with
      | some b64 =>
        { e with featuredEventPhoto := some { id := "", baseUrl := b64 } }
      | none => e
    else e
  | none => e

/-- The photo-album block of `embedEventImages`' loop body for one event:
when the album `id` is truthy and `photoCount > 0`, run the secondary
query; if it returned any photos, download the first
`min(photos.length, 20)` of them, keep the successful downloads in order,
and attach them as `photoAlbum.photos.edges` only when at least one
succeeded.  (The event's `id`, read here, is never modified by the
featured-photo block that precedes this one in the loop body.) -/
def embedAlbum (http : HttpOracle) (album : AlbumOracle) (e : Event) :
    Event :=
  match e.photoAlbum with
  | some alb =>
    match alb.id, alb.photoCount with
    | some albumId, some expectedCount =>
      if albumId ≠ "" ∧ expectedCount > 0 then
        let photos := fetchPhotoAlbumImages album e.id expectedCount
        if photos.length > 0 then
          let limit := min photos.length 20
          let albumPhotos := (photos.take limit).filterMap (fun p =>
            (downloadImageAsBase64 http p.1).map (fun b64 =>
              ({ id := p.2, baseUrl := b64 } : Photo)))
          if albumPhotos.length > 0 then
            { e with photoAlbum := some { alb with
                photos := some ⟨albumPhotos.map (fun p => ⟨p⟩)⟩ } }
          else e
        else e
      else e
    | _, _ => e
  | none => e

/-- The body of `embedEventImages`' `for (const event of events)` loop for
one event, as a pure record update (the loop mutates only the current
event's photo fields; the `featuredCount` / `albumPhotoCount` counters
feed logging only): the featured-photo block followed by the album
block. -/
def embedOneEvent (http : HttpOracle) (album : AlbumOracle) (e : Event) :
    Event :=
  embedAlbum http album (embedFeatured http e)

/-- `embedEventImages` from meetupClient.ts: apply the per-event enrichment
to each event of the list in order (the source's `for...of` loop mutates
each element in place and returns the same array).  Total: every failure
path inside is absorbed by the helpers, so no exception escapes. -/
def embedEventImages (http : HttpOracle) (album : AlbumOracle) :
    List Event → List Event
  | [] => []
  | e :: rest => embedOneEvent http album e :: embedEventImages http album rest

/-! ## Dual-status aggregator (`fetchAllGroupEvents`) -/

/-- The result record of `fetchAllGroupEvents`. -/
structure ArchiveResult where
  events : List Event
  groupId : String
  groupName : String
  pastCount : Nat
  upcomingCount : Nat
deriving DecidableEq, Repr

/-- The comparator of `allEvents.sort((a, b) => getTime(a) - getTime(b))`
as a boolean `le` relation; JS `Array.prototype.sort` is a stable sort,
modelled by `List.mergeSort`. -/
def eventLe (a b : Event) : Bool := a.dateTime ≤ b.dateTime

/-- `fetchAllGroupEvents` from meetupClient.ts.  `pastPages` and
`upcomingPages` are the server's response sequences for the two status
categories.  The mandatory PAST fetch propagates its failure; the UPCOMING
fetch is wrapped in try/catch, any failure being replaced by an empty
result reusing the PAST group id/name.  The two lists are concatenated
(PAST first), stably sorted ascending by start time, passed through the
image-enrichment stage, and returned with the per-category counts.
`none` (the modelled non-termination of either inner loop) propagates,
since a hanging `await` cannot be caught. -/
def fetchAllGroupEvents (groupUrlname : String)
    (pastPages upcomingPages : List (Except TransportFault MeetupApiResponse))
    (http : HttpOracle) (album : AlbumOracle) :
    Option (Except ApiError ArchiveResult) :=
  match fetchAllEvents groupUrlname pastPages with
  | none => none
  | some (.error e) => some (.error e)
  | some (.ok pastResult) =>
    match fetchAllEvents groupUrlname upcomingPages with
    | none => none
    | some upcomingOutcome =>
      let upcomingResult : FetchResult :=
        match upcomingOutcome with
        | .ok r => r
        | .error _ => ⟨[], pastResult.groupId, pastResult.groupName⟩
      let allEvents :=
        (pastResult.events ++ upcomingResult.events).mergeSort eventLe
      let eventsWithImages := embedEventImages http album allEvents
      some (.ok ⟨eventsWithImages, pastResult.groupId, pastResult.groupName,
        pastResult.events.length, upcomingResult.events.length⟩)

/-! ## Derived projections used by the theorems -/

/-- The non-photo fields of an event (identity, title, start time, url,
hosts): everything the enrichment stage is forbidden to touch. -/
def eventCore (e : Event) :
    String × String × Nat × String × Option (List EventHost) :=
  (e.id, e.title, e.dateTime, e.eventUrl, e.eventHosts)

/-- The data URI built from a successful raw download, as
`downloadImageAsBase64` builds it: `data:<mime>;base64,<payload>` with the
`image/jpeg` fallback for a missing or empty content type. -/
def dataUriOf (raw : RawImage) : String :=
  "data:" ++ (match raw.contentType with
    | some c => if c = "" then "image/jpeg" else c
    | none => "image/jpeg") ++ ";base64," ++ raw.base64

/-- The album photos attached to an event's photo-album descriptor
(empty when no `photos` connection is attached). -/
def attachedAlbumPhotos (e : Event) : List Photo :=
  match e.photoAlbum with
  | some alb =>
    match alb.photos with
    | some conn => conn.edges.map (fun edge => edge.node)
    | none => []
  | none => []

/-- A well-formed served page for the pagination theorems: an envelope with
no `errors`, a resolved group and a present events connection.  `toResp`
injects it into the transport-outcome type consumed by the loop. -/
structure ServedPage where
  groupId : String
  groupName : String
  conn : EventsConnection
deriving DecidableEq, Repr

/-- The transport outcome delivering a served page for group `u`. -/
def ServedPage.toResp (u : String) (p : ServedPage) :
    Except TransportFault MeetupApiResponse :=
  .ok ⟨⟨some ⟨p.groupId, p.groupName, u, some p.conn⟩⟩, none⟩

/-! ## Theorems -/

lemma downloadImageAsBase64_eq_map (http : HttpOracle) (url : String) :
    downloadImageAsBase64 http url = (http url).map dataUriOf := by
  cases h : http url <;> simp [downloadImageAsBase64, dataUriOf, h]

/-- C6: `checkRateLimit` never fails (it is a total function by
construction); if the elapsed time since window start exceeds the window
length it resets the request counter and window start to now; and if the
counter is within the safety margin (10) of the budget (500) while time
remains in the window, it immediately resets the counter and window start
(the optimistic reset) rather than performing a true wait. -/
theorem checkRateLimit_resets (now : Int) (s : RateState) :
    (now - s.windowStart > RATE_LIMIT_WINDOW →
      checkRateLimit now s = ⟨0, now⟩) ∧
    (s.requestCount ≥ RATE_LIMIT_POINTS - 10 →
      now - s.windowStart < RATE_LIMIT_WINDOW →
      checkRateLimit now s = ⟨0, now⟩) := by
  constructor
  · intro h
    simp only [checkRateLimit, if_pos h]
    norm_num [RATE_LIMIT_POINTS]
  · intro hcount helapsed
    have h1 : ¬ (now - s.windowStart > RATE_LIMIT_WINDOW) := by omega
    simp only [checkRateLimit, if_neg h1, if_pos hcount]
    have h2 : RATE_LIMIT_WINDOW - (now - s.windowStart) > 0 := by omega
    simp only [if_pos h2]

/-- Witness for C6: both reset branches at concrete inputs
(window expired with a low counter; counter at 495 inside the window). -/
theorem checkRateLimit_resets_witness :
    checkRateLimit 70000 ⟨5, 0⟩ = ⟨0, 70000⟩ ∧
    checkRateLimit 1000 ⟨495, 0⟩ = ⟨0, 1000⟩ :=
  ⟨(checkRateLimit_resets 70000 ⟨5, 0⟩).1 (by decide),
   (checkRateLimit_resets 1000 ⟨495, 0⟩).2 (by decide) (by decide)⟩

/-- C5 counterexample: an envelope whose error list CONTAINS a
throttling-classified error (in second position) but whose FIRST error is
an ordinary one is rejected with `GraphQLError`, not `RateLimited`:
`executeQuery` classifies by `errors[0]` alone, so "fails with
RateLimited whenever the envelope carries a throttling error" is false. -/
theorem executeQuery_second_throttle_cex :
    (⟨"throttled", some ⟨"RATE_LIMITED", some "2025-01-01"⟩⟩ : GqlError) ∈
      [(⟨"boom", none⟩ : GqlError),
       ⟨"throttled", some ⟨"RATE_LIMITED", some "2025-01-01"⟩⟩] ∧
    executeQuery (.ok ⟨⟨none⟩,
      some [⟨"boom", none⟩,
            ⟨"throttled", some ⟨"RATE_LIMITED", some "2025-01-01"⟩⟩]⟩)
      = .error (.graphQLError "boom") := by
  constructor
  · simp
  · rfl

/-- C5 amended: for every envelope carrying a non-empty error list,
`executeQuery` fails, and the classification is decided by the FIRST
error entry alone: `RateLimited(resetAt)` when its `extensions.code` is
`RATE_LIMITED`, `GraphQLError(message)` otherwise (including when it has
no `extensions` object). -/
theorem executeQuery_nonempty_errors_fails (r : MeetupApiResponse)
    (e : GqlError) (rest : List GqlError) (h : r.errors = some (e :: rest)) :
    (∀ x, e.ext = some x → x.code = "RATE_LIMITED" →
      executeQuery (.ok r) = .error (.rateLimited x.resetAt)) ∧
    (∀ x, e.ext = some x → x.code ≠ "RATE_LIMITED" →
      executeQuery (.ok r) = .error (.graphQLError e.message)) ∧
    (e.ext = none → executeQuery (.ok r) = .error (.graphQLError e.message)) := by
  refine ⟨?_, ?_, ?_⟩
  · intro x hx hc
    simp [executeQuery, h, hx, hc]
  · intro x hx hc
    simp [executeQuery, h, hx, hc]
  · intro hx
    simp [executeQuery, h, hx]

/-- Witness for C5 (amended): a throttling first error at a concrete
envelope yields `RateLimited` with its reset hint. -/
theorem executeQuery_nonempty_errors_fails_witness :
    executeQuery (.ok ⟨⟨none⟩,
      some [⟨"slow down", some ⟨"RATE_LIMITED", some "soon"⟩⟩]⟩)
      = .error (.rateLimited (some "soon")) :=
  (executeQuery_nonempty_errors_fails
      ⟨⟨none⟩, some [⟨"slow down", some ⟨"RATE_LIMITED", some "soon"⟩⟩]⟩
      ⟨"slow down", some ⟨"RATE_LIMITED", some "soon"⟩⟩ [] rfl).1
    ⟨"RATE_LIMITED", some "soon"⟩ rfl rfl

/-- C3: if the mandatory PAST fetch fails with `GroupNotFound`, the whole
`fetchAllGroupEvents` call fails with that same error — no partial result
(the returned value carries no events, only the error). -/
theorem fetchAllGroupEvents_mandatory_groupNotFound (groupUrlname u : String)
    (pastPages upcomingPages : List (Except TransportFault MeetupApiResponse))
    (http : HttpOracle) (album : AlbumOracle)
    (h : fetchAllEvents groupUrlname pastPages
      = some (.error (.groupNotFound u))) :
    fetchAllGroupEvents groupUrlname pastPages upcomingPages http album
      = some (.error (.groupNotFound u)) := by
  simp [fetchAllGroupEvents, h]

/-- Witness for C3: a first PAST page with an unresolved group at concrete
input makes the whole aggregation fail with `GroupNotFound`. -/
theorem fetchAllGroupEvents_mandatory_groupNotFound_witness :
    fetchAllGroupEvents "sample-group" [.ok ⟨⟨none⟩, none⟩] []
      (fun _ => none) (fun _ _ => none)
      = some (.error (.groupNotFound "sample-group")) :=
  fetchAllGroupEvents_mandatory_groupNotFound "sample-group" "sample-group"
    [.ok ⟨⟨none⟩, none⟩] [] (fun _ => none) (fun _ _ => none) rfl

lemma embedFeatured_core (http : HttpOracle) (e : Event) :
    eventCore (embedFeatured http e) = eventCore e := by
  simp only [embedFeatured]
  (repeat' split) <;> rfl

lemma embedAlbum_core (http : HttpOracle) (album : AlbumOracle) (e : Event) :
    eventCore (embedAlbum http album e) = eventCore e := by
  simp only [embedAlbum]
  (repeat' split) <;> rfl

lemma embedOneEvent_core (http : HttpOracle) (album : AlbumOracle)
    (e : Event) : eventCore (embedOneEvent http album e) = eventCore e := by
  rw [embedOneEvent, embedAlbum_core, embedFeatured_core]

lemma embedOneEvent_id (http : HttpOracle) (album : AlbumOracle) (e : Event) :
    (embedOneEvent http album e).id = e.id :=
  congrArg (fun t => t.1) (embedOneEvent_core http album e)

lemma embedOneEvent_dateTime (http : HttpOracle) (album : AlbumOracle)
    (e : Event) : (embedOneEvent http album e).dateTime = e.dateTime :=
  congrArg (fun t => t.2.2.1) (embedOneEvent_core http album e)

lemma embedEventImages_eq_map (http : HttpOracle) (album : AlbumOracle)
    (l : List Event) :
    embedEventImages http album l = l.map (embedOneEvent http album) := by
  induction l with
  | nil => rfl
  | cons e rest ih => simp [embedEventImages, ih]

lemma embedEventImages_map_core (http : HttpOracle) (album : AlbumOracle)
    (l : List Event) :
    (embedEventImages http album l).map eventCore = l.map eventCore := by
  rw [embedEventImages_eq_map, List.map_map]
  exact List.map_congr_left (fun e _ => embedOneEvent_core http album e)

/-- C7: for every input record list and any download/album oracles,
`embedEventImages` returns a list of the same length whose records keep
the same ids in the same order (no record dropped, reordered or
duplicated), and every non-photo field of every record is unchanged —
only photo fields are mutated. -/
theorem embedEventImages_order_preserving (http : HttpOracle)
    (album : AlbumOracle) (l : List Event) :
    (embedEventImages http album l).length = l.length ∧
    (embedEventImages http album l).map (fun e => e.id)
      = l.map (fun e => e.id) ∧
    (embedEventImages http album l).map eventCore = l.map eventCore := by
  refine ⟨?_, ?_, embedEventImages_map_core http album l⟩
  · rw [embedEventImages_eq_map, List.length_map]
  · rw [embedEventImages_eq_map, List.map_map]
    exact List.map_congr_left (fun e _ => embedOneEvent_id http album e)

lemma embedAlbum_featured (http : HttpOracle) (album : AlbumOracle)
    (e : Event) :
    (embedAlbum http album e).featuredEventPhoto = e.featuredEventPhoto := by
  simp only [embedAlbum]
  (repeat' split) <;> rfl

lemma embedFeatured_albumField (http : HttpOracle) (e : Event) :
    (embedFeatured http e).photoAlbum = e.photoAlbum := by
  simp only [embedFeatured]
  (repeat' split) <;> rfl

lemma embedOneEvent_featured (http : HttpOracle) (album : AlbumOracle)
    (e : Event) (p : Photo) (hp : e.featuredEventPhoto = some p)
    (hb : p.baseUrl ≠ "") (hi : p.id ≠ "") :
    (embedOneEvent http album e).featuredEventPhoto =
      match http (featuredImageUrl p) with
      | some raw => some ⟨"", dataUriOf raw⟩
      | none => some p := by
  rw [embedOneEvent, embedAlbum_featured]
  simp only [embedFeatured, hp, downloadImageAsBase64_eq_map]
  cases hr : http (featuredImageUrl p) <;> simp [hb, hi, hp]

/-- C8: for every record whose featured-photo descriptor has a non-empty
base URL and id, and any oracles: on successful download the descriptor is
replaced by `{ id := "", baseUrl := "data:<mime>;base64,<payload>" }`
(a self-contained data URI) and on download failure (timeout included) it
is left in its original remote-URL form; `embedEventImages` is a total
function, so no exception escapes it either way. -/
theorem embedEventImages_featured_photo (http : HttpOracle)
    (album : AlbumOracle) (l : List Event) (i : Nat) (e : Event) (p : Photo)
    (hl : l[i]? = some e) (hp : e.featuredEventPhoto = some p)
    (hb : p.baseUrl ≠ "") (hi : p.id ≠ "") :
    ((embedEventImages http album l)[i]?).map
        (fun ev => ev.featuredEventPhoto) =
      some (match http (featuredImageUrl p) with
        | some raw => some ⟨"", dataUriOf raw⟩
        | none => some p) := by
  rw [embedEventImages_eq_map, List.getElem?_map, hl]
  simp only [Option.map_some']
  rw [embedOneEvent_featured http album e p hp hb hi]

/-- Witness for C8: one success and one failure at concrete inputs.  The
success oracle serves a PNG for the built URL `b/7/676x380.jpg`; the
failure oracle times out. -/
theorem embedEventImages_featured_photo_witness :
    ((embedEventImages (fun _ => some ⟨some "image/png", "QUJD"⟩)
        (fun _ _ => none)
        [⟨"e1", "t", 5, "u", none, some ⟨"7", "b"⟩, none⟩])[0]?).map
      (fun ev => ev.featuredEventPhoto)
      = some (some ⟨"", "data:image/png;base64,QUJD"⟩) ∧
    ((embedEventImages (fun _ => none) (fun _ _ => none)
        [⟨"e1", "t", 5, "u", none, some ⟨"7", "b"⟩, none⟩])[0]?).map
      (fun ev => ev.featuredEventPhoto)
      = some (some ⟨"7", "b"⟩) := by
  constructor
  · have h := embedEventImages_featured_photo
      (fun _ => some ⟨some "image/png", "QUJD"⟩) (fun _ _ => none)
      [⟨"e1", "t", 5, "u", none, some ⟨"7", "b"⟩, none⟩] 0
      ⟨"e1", "t", 5, "u", none, some ⟨"7", "b"⟩, none⟩ ⟨"7", "b"⟩
      rfl rfl (by decide) (by decide)
    exact h
  · have h := embedEventImages_featured_photo
      (fun _ => none) (fun _ _ => none)
      [⟨"e1", "t", 5, "u", none, some ⟨"7", "b"⟩, none⟩] 0
      ⟨"e1", "t", 5, "u", none, some ⟨"7", "b"⟩, none⟩ ⟨"7", "b"⟩
      rfl rfl (by decide) (by decide)
    exact h

/-- An event whose photo-album descriptor carries no attached `photos`
connection yet, as every event coming out of the paginated fetch does (the
main query never populates `photos`; only the enrichment stage attaches
it). -/
def albumPhotosAbsent (e : Event) : Bool :=
  match e.photoAlbum with
  | some alb => alb.photos.isNone
  | none => true

lemma embedAlbum_cap (http : HttpOracle) (album : AlbumOracle) (x : Event)
    (hx : albumPhotosAbsent x = true) :
    (attachedAlbumPhotos (embedAlbum http album x)).length ≤ 20 := by
  cases halb : x.photoAlbum with
  | none => simp [embedAlbum, halb, attachedAlbumPhotos]
  | some alb =>
    have hphotos : alb.photos = none := by
      simpa [albumPhotosAbsent, halb, Option.isNone_iff_eq_none] using hx
    cases hid : alb.id with
    | none => simp [embedAlbum, halb, hid, attachedAlbumPhotos, hphotos]
    | some albumId =>
      cases hcount : alb.photoCount with
      | none => simp [embedAlbum, halb, hid, hcount, attachedAlbumPhotos,
          hphotos]
      | some expectedCount =>
        simp only [embedAlbum, halb, hid, hcount]
        split
        · split
          · split
            · simp only [attachedAlbumPhotos, List.map_map]
              have h1 := List.length_filterMap_le
                (fun p => (downloadImageAsBase64 http p.1).map (fun b64 =>
                  ({ id := p.2, baseUrl := b64 } : Photo)))
                ((fetchPhotoAlbumImages album x.id expectedCount).take
                  (min (fetchPhotoAlbumImages album x.id
                    expectedCount).length 20))
              have h2 := List.length_take
                (min (fetchPhotoAlbumImages album x.id
                  expectedCount).length 20)
                (fetchPhotoAlbumImages album x.id expectedCount)
              simp only [List.length_map]
              omega
            · simp [attachedAlbumPhotos, halb, hphotos]
          · simp [attachedAlbumPhotos, halb, hphotos]
        · simp [attachedAlbumPhotos, halb, hphotos]

/-- C9: for every event list whose albums carry no pre-attached photo
list (as is the case for everything the paginated fetch produces) and any
oracles, every record returned by `embedEventImages` has at most 20 photos
attached to its album descriptor, regardless of how many photos the
secondary album query returned (the download loop is capped at
`min(photos.length, 20)`). -/
theorem embedEventImages_album_cap (http : HttpOracle)
    (album : AlbumOracle) (l : List Event)
    (hin : ∀ e ∈ l, albumPhotosAbsent e = true) :
    ∀ e2 ∈ embedEventImages http album l,
      (attachedAlbumPhotos e2).length ≤ 20 := by
  intro e2 he2
  rw [embedEventImages_eq_map] at he2
  obtain ⟨e, hel, rfl⟩ := List.mem_map.mp he2
  rw [embedOneEvent]
  apply embedAlbum_cap
  have h1 := embedFeatured_albumField http e
  have h2 := hin e hel
  simp only [albumPhotosAbsent] at h2 ⊢
  rw [h1]
  exact h2

/-- Witness for C9: a concrete event whose album query returns 25 photos,
with every download succeeding — the attached list is still capped. -/
theorem embedEventImages_album_cap_witness :
    (attachedAlbumPhotos (embedOneEvent
      (fun _ => some ⟨some "image/png", "QUJD"⟩)
      (fun _ _ => some ⟨false,
        some (List.replicate 25 ⟨some "p1", none, some "hi"⟩)⟩)
      ⟨"e1", "t", 5, "u", none, none,
        some ⟨some "alb1", some 25, none⟩⟩)).length ≤ 20 := by
  have h := embedEventImages_album_cap
    (fun _ => some ⟨some "image/png", "QUJD"⟩)
    (fun _ _ => some ⟨false,
      some (List.replicate 25 ⟨some "p1", none, some "hi"⟩)⟩)
    [⟨"e1", "t", 5, "u", none, none, some ⟨some "alb1", some 25, none⟩⟩]
    (by decide)
  exact h _ (List.Mem.head _)

lemma fetchAllEventsLoop_served (u : String) :
    ∀ (init : List ServedPage) (last : ServedPage) (acc : List Event),
    (∀ p ∈ init, p.conn.pageInfo.hasNextPage = true) →
    last.conn.pageInfo.hasNextPage = false →
    fetchAllEventsLoop u acc ((init ++ [last]).map (ServedPage.toResp u)) =
      some (.ok ⟨acc ++
        ((init ++ [last]).map (fun p => filteredPageEvents p.conn)).flatten,
        last.groupId, last.groupName⟩) := by
  intro init
  induction init with
  | nil =>
    intro last acc _ h2
    simp [fetchAllEventsLoop, executeQuery, ServedPage.toResp, h2]
  | cons p rest ih =>
    intro last acc h1 h2
    have hp : p.conn.pageInfo.hasNextPage = true :=
      h1 p (List.mem_cons_self p rest)
    have hrest : ∀ q ∈ rest, q.conn.pageInfo.hasNextPage = true :=
      fun q hq => h1 q (List.mem_cons_of_mem p hq)
    simp only [List.cons_append, List.map_cons, fetchAllEventsLoop,
      ServedPage.toResp, executeQuery, List.append_eq]
    rw [if_pos hp]
    rw [ih last (acc ++ filteredPageEvents p.conn) hrest h2]
    simp [List.flatten_cons, List.append_assoc]

/-- C1: for every pagination sequence whose `hasNextPage` flag becomes
false on its final page, with the group resolving (and the events
connection present) on every page, `fetchAllEvents` terminates
(returns a value rather than consuming past the supplied responses),
its accumulated list is exactly the concatenation of the per-page
post-filtered records, and its length equals the sum over all pages of the
number of that page's records surviving the sentinel-host post-filter. -/
theorem fetchAllEvents_terminates_sum (u : String) (init : List ServedPage)
    (last : ServedPage)
    (h1 : ∀ p ∈ init, p.conn.pageInfo.hasNextPage = true)
    (h2 : last.conn.pageInfo.hasNextPage = false) :
    ∃ r : FetchResult,
      fetchAllEvents u ((init ++ [last]).map (ServedPage.toResp u))
        = some (.ok r) ∧
      r.events
        = ((init ++ [last]).map (fun p => filteredPageEvents p.conn)).flatten ∧
      r.events.length
        = ((init ++ [last]).map
            (fun p => (filteredPageEvents p.conn).length)).sum := by
  refine ⟨⟨((init ++ [last]).map (fun p => filteredPageEvents p.conn)).flatten,
    last.groupId, last.groupName⟩, ?_, rfl, ?_⟩
  · rw [fetchAllEvents, fetchAllEventsLoop_served u init last [] h1 h2]
    simp
  · rw [List.length_flatten, List.map_map]
    rfl

/-- Witness for C1: two served pages (the first posts two records, one of
which is sentinel-hosted; the second posts one record and ends the
sequence): the accumulated length is 1 + 1. -/
theorem fetchAllEvents_terminates_sum_witness :
    ∃ r : FetchResult,
      fetchAllEvents "g"
          (([⟨"id1", "n1", ⟨10, ⟨"c1", true⟩,
              [⟨⟨"e1", "t1", 1, "u1", none, none, none⟩⟩,
               ⟨⟨"e2", "t2", 2, "u2",
                 some [⟨"m1", "OWASP® Foundation"⟩], none, none⟩⟩]⟩⟩,
            ⟨"id1", "n1", ⟨10, ⟨"c2", false⟩,
              [⟨⟨"e3", "t3", 3, "u3", none, none, none⟩⟩]⟩⟩] :
            List ServedPage).map (ServedPage.toResp "g"))
        = some (.ok r) ∧
      r.events = [⟨"e1", "t1", 1, "u1", none, none, none⟩,
                  ⟨"e3", "t3", 3, "u3", none, none, none⟩] ∧
      r.events.length = 2 := by
  obtain ⟨r, hr, hev, hlen⟩ := fetchAllEvents_terminates_sum "g"
    [⟨"id1", "n1", ⟨10, ⟨"c1", true⟩,
        [⟨⟨"e1", "t1", 1, "u1", none, none, none⟩⟩,
         ⟨⟨"e2", "t2", 2, "u2",
           some [⟨"m1", "OWASP® Foundation"⟩], none, none⟩⟩]⟩⟩]
    ⟨"id1", "n1", ⟨10, ⟨"c2", false⟩,
        [⟨⟨"e3", "t3", 3, "u3", none, none, none⟩⟩]⟩⟩
    (by decide) (by decide)
  refine ⟨r, hr, ?_, ?_⟩
  · rw [hev]; rfl
  · rw [hlen]; rfl

/-- C10: the group-resolution check runs on every iteration of the
pagination loop: after any number of successfully accumulated pages
(each resolving the group and announcing another page), a response whose
`groupByUrlname` is null makes `fetchAllEvents` throw `GroupNotFound`,
and everything accumulated from the earlier pages of this category fetch
is discarded — the outcome is the bare error, not a partial result. -/
theorem fetchAllEvents_late_groupNotFound (u : String)
    (init : List ServedPage)
    (rest : List (Except TransportFault MeetupApiResponse))
    (h1 : ∀ p ∈ init, p.conn.pageInfo.hasNextPage = true) :
    fetchAllEvents u
        (init.map (ServedPage.toResp u) ++ .ok ⟨⟨none⟩, none⟩ :: rest)
      = some (.error (.groupNotFound u)) := by
  rw [fetchAllEvents]
  generalize ([] : List Event) = acc
  induction init generalizing acc with
  | nil => simp [fetchAllEventsLoop, executeQuery]
  | cons p tail ih =>
    have hp : p.conn.pageInfo.hasNextPage = true :=
      h1 p (List.mem_cons_self p tail)
    have htail : ∀ q ∈ tail, q.conn.pageInfo.hasNextPage = true :=
      fun q hq => h1 q (List.mem_cons_of_mem p hq)
    simp only [List.map_cons, List.cons_append, fetchAllEventsLoop,
      ServedPage.toResp, executeQuery]
    rw [if_pos hp]
    exact ih htail _

/-- Witness for C10: one good first page carrying a record and announcing
a next page, then a group-less response: the whole PAST fetch fails with
`GroupNotFound` and the first page's record is gone. -/
theorem fetchAllEvents_late_groupNotFound_witness :
    fetchAllEvents "sample-group"
        (([⟨"id1", "n1", ⟨10, ⟨"c1", true⟩,
            [⟨⟨"e1", "t1", 1, "u1", none, none, none⟩⟩]⟩⟩] :
          List ServedPage).map (ServedPage.toResp "sample-group")
         ++ .ok ⟨⟨none⟩, none⟩ :: [])
      = some (.error (.groupNotFound "sample-group")) :=
  fetchAllEvents_late_groupNotFound "sample-group"
    [⟨"id1", "n1", ⟨10, ⟨"c1", true⟩,
        [⟨⟨"e1", "t1", 1, "u1", none, none, none⟩⟩]⟩⟩] [] (by decide)

lemma eventLe_trans : ∀ a b c : Event,
    eventLe a b = true → eventLe b c = true → eventLe a c = true := by
  intro a b c hab hbc
  simp only [eventLe, decide_eq_true_eq] at *
  omega

lemma eventLe_total : ∀ a b : Event, eventLe a b || eventLe b a := by
  intro a b
  rcases Nat.le_total a.dateTime b.dateTime with h | h <;> simp [eventLe, h]

/-- C2: if the mandatory PAST fetch succeeds, then whatever error the
optional UPCOMING fetch raises, `fetchAllGroupEvents` still returns
successfully, with `upcomingCount = 0`, `pastCount` the mandatory record
count, groupId/groupName taken from the mandatory fetch, and a record list
that is exactly the mandatory category's records (same length; the same
multiset of records up to the later photo-field enrichment, witnessed by
the permutation of their non-photo fields). -/
theorem fetchAllGroupEvents_optional_failure (u : String)
    (pastPages upcomingPages : List (Except TransportFault MeetupApiResponse))
    (http : HttpOracle) (album : AlbumOracle) (past : FetchResult)
    (err : ApiError)
    (hp : fetchAllEvents u pastPages = some (.ok past))
    (hu : fetchAllEvents u upcomingPages = some (.error err)) :
    ∃ res : ArchiveResult,
      fetchAllGroupEvents u pastPages upcomingPages http album
        = some (.ok res) ∧
      res.groupId = past.groupId ∧ res.groupName = past.groupName ∧
      res.upcomingCount = 0 ∧ res.pastCount = past.events.length ∧
      res.events.length = past.events.length ∧
      (res.events.map eventCore).Perm (past.events.map eventCore) := by
  refine ⟨⟨embedEventImages http album
      ((past.events ++ ([] : List Event)).mergeSort eventLe),
    past.groupId, past.groupName, past.events.length, 0⟩, ?_, rfl, rfl, rfl,
    rfl, ?_, ?_⟩
  · simp [fetchAllGroupEvents, hp, hu]
  · rw [embedEventImages_eq_map, List.length_map, List.length_mergeSort,
      List.append_nil]
  · rw [embedEventImages_map_core]
    have h1 : ((past.events ++ ([] : List Event)).mergeSort eventLe).Perm
        past.events := by
      simpa using List.mergeSort_perm (past.events ++ ([] : List Event))
        eventLe
    exact h1.map eventCore

/-- Witness for C2: one successful PAST page with one record, and an
UPCOMING fetch that fails with `GroupNotFound`, at concrete inputs. -/
theorem fetchAllGroupEvents_optional_failure_witness :
    ∃ res : ArchiveResult,
      fetchAllGroupEvents "g"
          (([⟨"id1", "n1", ⟨1, ⟨"c1", false⟩,
              [⟨⟨"e1", "t1", 1, "u1", none, none, none⟩⟩]⟩⟩] :
            List ServedPage).map (ServedPage.toResp "g"))
          [.ok ⟨⟨none⟩, none⟩] (fun _ => none) (fun _ _ => none)
        = some (.ok res) ∧
      res.groupId = "id1" ∧ res.groupName = "n1" ∧
      res.upcomingCount = 0 ∧ res.pastCount = 1 ∧
      res.events.length = 1 ∧
      (res.events.map eventCore).Perm
        ([⟨"e1", "t1", 1, "u1", none, none, none⟩].map eventCore) := by
  obtain ⟨res, h0, h1, h2, h3, h4, h5, h6⟩ :=
    fetchAllGroupEvents_optional_failure "g"
      (([⟨"id1", "n1", ⟨1, ⟨"c1", false⟩,
          [⟨⟨"e1", "t1", 1, "u1", none, none, none⟩⟩]⟩⟩] :
        List ServedPage).map (ServedPage.toResp "g"))
      [.ok ⟨⟨none⟩, none⟩] (fun _ => none) (fun _ _ => none)
      ⟨[⟨"e1", "t1", 1, "u1", none, none, none⟩], "id1", "n1"⟩
      (.groupNotFound "g") rfl rfl
  exact ⟨res, h0, h1, h2, h3, h4, h5, h6⟩

/-- C4: when both category fetches succeed, the merged list of
`fetchAllGroupEvents` is the concatenation (mandatory category first) of
the two record lists, stable-sorted ascending by start time: the result is
a permutation of the concatenation, it is sorted by `dateTime`, and for
every timestamp the records carrying it appear in exactly their
concatenation order (ties keep insertion order, PAST records before
UPCOMING records) — all read through the records' non-photo fields, which
the subsequent enrichment stage leaves unchanged. -/
theorem fetchAllGroupEvents_merge_stable_sort (u : String)
    (pastPages upcomingPages : List (Except TransportFault MeetupApiResponse))
    (http : HttpOracle) (album : AlbumOracle) (past upc : FetchResult)
    (hp : fetchAllEvents u pastPages = some (.ok past))
    (hu : fetchAllEvents u upcomingPages = some (.ok upc)) :
    ∃ res : ArchiveResult,
      fetchAllGroupEvents u pastPages upcomingPages http album
        = some (.ok res) ∧
      (res.events.map eventCore).Perm
        ((past.events ++ upc.events).map eventCore) ∧
      res.events.Pairwise (fun a b => a.dateTime ≤ b.dateTime) ∧
      ∀ t : Nat,
        (res.events.filter (fun e => e.dateTime == t)).map eventCore
          = ((past.events ++ upc.events).filter
              (fun e => e.dateTime == t)).map eventCore := by
  refine ⟨⟨embedEventImages http album
      ((past.events ++ upc.events).mergeSort eventLe),
    past.groupId, past.groupName, past.events.length, upc.events.length⟩,
    ?_, ?_, ?_, ?_⟩
  · simp [fetchAllGroupEvents, hp, hu]
  · rw [embedEventImages_map_core]
    exact (List.mergeSort_perm (past.events ++ upc.events) eventLe).map
      eventCore
  · rw [embedEventImages_eq_map]
    rw [List.pairwise_map]
    have hs := List.sorted_mergeSort eventLe_trans eventLe_total
      (past.events ++ upc.events)
    refine hs.imp ?_
    intro a b hab
    rw [embedOneEvent_dateTime, embedOneEvent_dateTime]
    simpa [eventLe] using hab
  · intro t
    have htriv : ∀ x : Event,
        (fun e => e.dateTime == t) (embedOneEvent http album x)
          = (fun e => e.dateTime == t) x := by
      intro x
      simp only [embedOneEvent_dateTime]
    have hfil : ((past.events ++ upc.events).mergeSort eventLe).filter
        (fun e => e.dateTime == t)
        = (past.events ++ upc.events).filter (fun e => e.dateTime == t) := by
      have hpw : ((past.events ++ upc.events).filter
          (fun e => e.dateTime == t)).Pairwise
          (fun a b => eventLe a b = true) := by
        apply List.pairwise_of_forall_mem_list
        intro a ha b hb
        have ha2 := List.of_mem_filter ha
        have hb2 := List.of_mem_filter hb
        simp only [beq_iff_eq] at ha2 hb2
        simp [eventLe, ha2, hb2]
      have hsub : ((past.events ++ upc.events).filter
          (fun e => e.dateTime == t)).Sublist
          ((past.events ++ upc.events).mergeSort eventLe) :=
        List.sublist_mergeSort eventLe_trans eventLe_total hpw
          (List.filter_sublist _)
      have hsub2 : ((past.events ++ upc.events).filter
          (fun e => e.dateTime == t)).Sublist
          (((past.events ++ upc.events).mergeSort eventLe).filter
            (fun e => e.dateTime == t)) := by
        have := hsub.filter (fun e => e.dateTime == t)
        rwa [List.filter_filter, show
          (fun e : Event => (e.dateTime == t) && (e.dateTime == t))
            = (fun e : Event => e.dateTime == t) from by
          funext e; cases e.dateTime == t <;> rfl] at this
      have hlen : (((past.events ++ upc.events).mergeSort eventLe).filter
          (fun e => e.dateTime == t)).length
          = ((past.events ++ upc.events).filter
              (fun e => e.dateTime == t)).length :=
        ((List.mergeSort_perm (past.events ++ upc.events) eventLe).filter
          _).length_eq
      exact (hsub2.eq_of_length hlen.symm).symm
    rw [embedEventImages_eq_map, List.filter_map,
      show ((fun e : Event => e.dateTime == t) ∘ embedOneEvent http album)
        = (fun e : Event => e.dateTime == t) from funext htriv,
      hfil, List.map_map]
    exact List.map_congr_left (fun e _ => embedOneEvent_core http album e)

/-- Witness for C4: historical records at times [t2, t1] and an upcoming
record at t3 with t1 < t2 < t3; the merged archive is sorted, a
permutation of the concatenation, and tie-stable. -/
theorem fetchAllGroupEvents_merge_stable_sort_witness :
    ∃ res : ArchiveResult,
      fetchAllGroupEvents "g"
          (([⟨"id1", "n1", ⟨2, ⟨"c1", false⟩,
              [⟨⟨"e2", "t", 2, "u", none, none, none⟩⟩,
               ⟨⟨"e1", "t", 1, "u", none, none, none⟩⟩]⟩⟩] :
            List ServedPage).map (ServedPage.toResp "g"))
          (([⟨"id1", "n1", ⟨1, ⟨"c2", false⟩,
              [⟨⟨"e3", "t", 3, "u", none, none, none⟩⟩]⟩⟩] :
            List ServedPage).map (ServedPage.toResp "g"))
          (fun _ => none) (fun _ _ => none)
        = some (.ok res) ∧
      (res.events.map eventCore).Perm
        ((([⟨"e2", "t", 2, "u", none, none, none⟩,
            ⟨"e1", "t", 1, "u", none, none, none⟩] : List Event) ++
          ([⟨"e3", "t", 3, "u", none, none, none⟩] : List Event)).map
            eventCore) ∧
      res.events.Pairwise (fun a b => a.dateTime ≤ b.dateTime) ∧
      ∀ t : Nat,
        (res.events.filter (fun e => e.dateTime == t)).map eventCore
          = ((([⟨"e2", "t", 2, "u", none, none, none⟩,
                ⟨"e1", "t", 1, "u", none, none, none⟩] : List Event) ++
              ([⟨"e3", "t", 3, "u", none, none, none⟩] : List Event)).filter
              (fun e => e.dateTime == t)).map eventCore :=
  fetchAllGroupEvents_merge_stable_sort "g"
    (([⟨"id1", "n1", ⟨2, ⟨"c1", false⟩,
        [⟨⟨"e2", "t", 2, "u", none, none, none⟩⟩,
         ⟨⟨"e1", "t", 1, "u", none, none, none⟩⟩]⟩⟩] :
      List ServedPage).map (ServedPage.toResp "g"))
    (([⟨"id1", "n1", ⟨1, ⟨"c2", false⟩,
        [⟨⟨"e3", "t", 3, "u", none, none, none⟩⟩]⟩⟩] :
      List ServedPage).map (ServedPage.toResp "g"))
    (fun _ => none) (fun _ _ => none)
    ⟨[⟨"e2", "t", 2, "u", none, none, none⟩,
      ⟨"e1", "t", 1, "u", none, none, none⟩], "id1", "n1"⟩
    ⟨[⟨"e3", "t", 3, "u", none, none, none⟩], "id1", "n1"⟩
    rfl rfl

end MeetupArchiver
